import Mathlib

/-!
Verification development for the field-mapping survey application
(`src/app/components/tables/surveyor-table.tsx`).

The definitions below are a shallow embedding of the application's
layer-import pipeline, its database writes, the task-map loader and the
client-side map interaction handlers.  JavaScript strings are modelled as
Lean `String` (sequences of code points), JSON numbers as `Rat` (only
integer literals occur in the modelled inputs), and the ORM's nested
create call as an atomic transition on an explicit database state,
matching its documented transactional semantics.  The repository contains
two variants of the layer-create action (one connecting a `dispatcher`,
one connecting `admins`) and two variants of the task map (one placing an
"Add Point" popup at the click location, one with a crosshair at the map
center); both variants of each are embedded.
-/

/-- JSON values, the shape produced by `JSON.parse`. -/
inductive Json where
  | null
  | bool (b : Bool)
  | num (q : Rat)
  | str (s : String)
  | arr (elems : List Json)
  | obj (fields : List (String × Json))

/-- The reviver passed to `JSON.parse(String(features), (key, value) => ...)`
in both layer-create actions: a string value is replaced by the empty
string exactly when `value.length == 254` and
`[...new Set(Array.from(value))].length == 1`, i.e. it has exactly one
distinct character.  `List.dedup` models the distinct-character count of
the `Set`. -/
def scrubString (s : String) : String :=
  if s.data.length = 254 ∧ s.data.dedup.length = 1 then "" else s

/-- Whitespace accepted by the JSON grammar. -/
def skipWs : List Char → List Char
  | [] => []
  | c :: cs =>
    if c = ' ' ∨ c = '\n' ∨ c = '\t' ∨ c = '\r' then skipWs cs else c :: cs

/-- Body of a JSON string literal after the opening quote: the characters
up to the closing quote.  Escape sequences are outside the modelled input
subset and make the parse fail. -/
def parseStringBody : List Char → Option (List Char × List Char)
  | [] => none
  | c :: cs =>
    if c = '"' then some ([], cs)
    else if c = '\\' then none
    else
      match parseStringBody cs with
      | some (l, r) => some (c :: l, r)
      | none => none

/-- Longest digit prefix of the input, and the rest. -/
def takeDigits : List Char → List Char × List Char
  | [] => ([], [])
  | c :: cs =>
    if c.isDigit then
      let p := takeDigits cs
      (c :: p.1, p.2)
    else ([], c :: cs)

def digitsToNat (l : List Char) : Nat :=
  l.foldl (fun a c => a * 10 + (c.toNat - 48)) 0

/-- Integer JSON number literals (the only numeric shape appearing in the
modelled inputs). -/
def parseNumberTok : List Char → Option (Json × List Char)
  | '-' :: cs =>
    match takeDigits cs with
    | ([], _) => none
    | (ds, r) => some (Json.num (-(digitsToNat ds : Int) : Int), r)
  | cs =>
    match takeDigits cs with
    | ([], _) => none
    | (ds, r) => some (Json.num (digitsToNat ds), r)

/-- Recursive-descent JSON parser, by fuel.  The three components parse,
respectively: one value; the element list of a non-empty array after `[`;
the field list of a non-empty object after `\x7b`.  The reviver rewrite
`scrubString` is applied to every parsed string *value*, matching how
`JSON.parse` applies the reviver during deserialization (object keys are
not revived). -/
def parsers : Nat →
    (List Char → Option (Json × List Char)) ×
    (List Char → Option (List Json × List Char)) ×
    (List Char → Option (List (String × Json) × List Char))
  | 0 => (fun _ => none, fun _ => none, fun _ => none)
  | fuel + 1 =>
    let P := parsers fuel
    ( fun input =>
        match skipWs input with
        | '"' :: cs =>
          match parseStringBody cs with
          | some (l, r) => some (Json.str (scrubString (String.mk l)), r)
          | none => none
        | 't' :: 'r' :: 'u' :: 'e' :: cs => some (Json.bool true, cs)
        | 'f' :: 'a' :: 'l' :: 's' :: 'e' :: cs => some (Json.bool false, cs)
        | 'n' :: 'u' :: 'l' :: 'l' :: cs => some (Json.null, cs)
        | '[' :: cs =>
          match skipWs cs with
          | ']' :: r => some (Json.arr [], r)
          | cs' =>
            match P.2.1 cs' with
            | some (vs, r) => some (Json.arr vs, r)
            | none => none
        | '\x7b' :: cs =>
          match skipWs cs with
          | '\x7d' :: r => some (Json.obj [], r)
          | cs' =>
            match P.2.2 cs' with
            | some (fs, r) => some (Json.obj fs, r)
            | none => none
        | cs => parseNumberTok cs,
      fun input =>
        match P.1 input with
        | some (v, r) =>
          match skipWs r with
          | ',' :: r' =>
            match P.2.1 r' with
            | some (vs, r'') => some (v :: vs, r'')
            | none => none
          | ']' :: r' => some ([v], r')
          | _ => none
        | none => none,
      fun input =>
        match skipWs input with
        | '"' :: cs =>
          match parseStringBody cs with
          | some (k, r) =>
            match skipWs r with
            | ':' :: r' =>
              match P.1 r' with
              | some (v, r'') =>
                match skipWs r'' with
                | ',' :: r3 =>
                  match P.2.2 r3 with
                  | some (fs, r4) => some ((String.mk k, v) :: fs, r4)
                  | none => none
                | '\x7d' :: r3 => some ([(String.mk k, v)], r3)
                | _ => none
              | none => none
            | _ => none
          | none => none
        | _ => none )

/-- Parse one JSON value with enough fuel for the whole input. -/
def parseValue (fuel : Nat) : List Char → Option (Json × List Char) :=
  (parsers fuel).1

inductive ParseErr where
  | syntaxErr
deriving DecidableEq

/-- `JSON.parse(text, reviver)`: parse the whole text (trailing whitespace
allowed) and fail on anything else.  In particular parsing the empty
string fails, as `JSON.parse("")` throws. -/
def jsonParse (s : String) : Except ParseErr Json :=
  match parseValue (s.data.length + 1) s.data with
  | some (v, rest) =>
    if skipWs rest = [] then Except.ok v else Except.error ParseErr.syntaxErr
  | none => Except.error ParseErr.syntaxErr
/-! ## Database state and the layer-create actions -/

/-- A persisted Layer row.  The admins-variant action does not set
`labelField`; the dispatcher variant does. -/
structure LayerRow where
  id : Nat
  name : String
  labelField : Option String
  ownerId : Nat

/-- A persisted Feature row.  `label` is `none` when the insert data did
not set the column. -/
structure FeatureRow where
  id : Nat
  layerId : Nat
  geojson : Json
  label : Option Json

/-- A persisted Assignment row (1:1 with a Feature). -/
structure AssignmentRow where
  id : Nat
  featureId : Nat
  assigneeId : Nat
  surveyId : Option Nat
  completed : Bool

/-- The database state touched by the embedded operations. -/
structure Db where
  layers : List LayerRow
  features : List FeatureRow
  assignments : List AssignmentRow
  nextLayerId : Nat
  nextFeatureId : Nat
  nextAssignmentId : Nat

/-- One element of the `createMany.data` array of a nested feature
insert. -/
structure FeatureData where
  geojson : Json
  label : Option Json

/-- JavaScript property access `o[k]` on a parsed JSON value: `none`
models `undefined` (also returned when `o` is not an object). -/
def jsGet (v : Json) (k : String) : Option Json :=
  match v with
  | Json.obj fs =>
    match fs.find? (fun kv => kv.1 == k) with
    | some kv => some kv.2
    | none => none
  | _ => none

/-- Feature rows created by `createMany` under a freshly created layer:
ids are assigned sequentially from `startId` and every row is linked to
`layerId`. -/
def featureRowsFrom (startId layerId : Nat) : List FeatureData → List FeatureRow
  | [] => []
  | d :: ds =>
    { id := startId, layerId := layerId, geojson := d.geojson, label := d.label } ::
      featureRowsFrom (startId + 1) layerId ds

inductive DbErr where
  | uniqueViolation
deriving DecidableEq

/-- `prisma.layer.create(\x7b data: layer \x7d)` with an optional nested
`features.createMany`: one atomic write.  A nested create runs in a single
transaction, so either the Layer row and all its Feature rows are
inserted, or (on a `name` uniqueness violation) nothing is. -/
def prismaLayerCreate (db : Db) (nm : String) (lf : Option String)
    (ownerId : Nat) (data : List FeatureData) : Except DbErr Db :=
  if db.layers.any (fun L => L.name == nm) then
    Except.error DbErr.uniqueViolation
  else
    Except.ok { db with
      layers := db.layers ++
        [{ id := db.nextLayerId, name := nm, labelField := lf, ownerId := ownerId }],
      features := db.features ++ featureRowsFrom db.nextFeatureId db.nextLayerId data,
      nextLayerId := db.nextLayerId + 1,
      nextFeatureId := db.nextFeatureId + data.length }

/-- JavaScript `Array.prototype.map` with a body that can throw: `none`
models an exception escaping the whole map. -/
def mapOrThrow (g : α → Option β) : List α → Option (List β)
  | [] => some []
  | a :: as =>
    match g a with
    | some b =>
      match mapOrThrow g as with
      | some bs => some (b :: bs)
      | none => none
    | none => none

/-- The admins-variant map body
`(f) => (\x7b ...f, label: f.geojson.properties[String(field)] \x7d)`:
requires `f.geojson` to exist and `f.geojson.properties` to be an object
(otherwise the property chain throws); the `label` column gets
`properties[field]`, which may be absent (`none`).  Inputs whose elements
carry columns other than `geojson`/`label` are outside the modelled
subset. -/
def adminFeatureData (field : String) (f : Json) : Option FeatureData :=
  match jsGet f ("geojson") with
  | some g =>
    match jsGet g ("properties") with
    | some props =>
      match props with
      | Json.obj _ => some { geojson := g, label := jsGet props field }
      | _ => none
    | none => none
  | none => none

/-- The dispatcher-variant `createMany` data: the parsed elements are
passed through unchanged, so a row's columns are exactly the element's
`geojson` (required by the schema) and `label` keys. -/
def dispatcherFeatureData (f : Json) : Option FeatureData :=
  match jsGet f ("geojson") with
  | some g => some { geojson := g, label := jsGet f ("label") }
  | none => none

inductive ActionError where
  | parseError
  | typeError
  | validationError
  | uniqueViolation
deriving DecidableEq

/-- Result of one server action run: `error` carries the database state
observable after the failure. -/
inductive ActionResult where
  | ok (db : Db)
  | error (e : ActionError) (db : Db)

/-- The admins-variant layer-create action.  Faithful to the source
order: `JSON.parse` runs on the raw `features` field *before* the
`features == ""` test, the `layer` object (including the label-deriving
`.map`) is built next, and the single `prisma.layer.create` call runs
last. -/
def actionAdmins (db : Db) (userId : Nat) (features nm field : String) :
    ActionResult :=
  match jsonParse features with
  | Except.error _ => ActionResult.error ActionError.parseError db
  | Except.ok parsed =>
    if features = "" then
      match prismaLayerCreate db nm none userId [] with
      | Except.ok db' => ActionResult.ok db'
      | Except.error DbErr.uniqueViolation =>
        ActionResult.error ActionError.uniqueViolation db
    else
      match parsed with
      | Json.arr xs =>
        match mapOrThrow (adminFeatureData field) xs with
        | some rows =>
          match prismaLayerCreate db nm none userId rows with
          | Except.ok db' => ActionResult.ok db'
          | Except.error DbErr.uniqueViolation =>
            ActionResult.error ActionError.uniqueViolation db
        | none => ActionResult.error ActionError.typeError db
      | _ => ActionResult.error ActionError.typeError db

/-- The dispatcher-variant layer-create action: same shape, but it stores
`labelField` on the Layer and passes `parsedFeatures` to `createMany`
unchanged (no label derivation). -/
def actionDispatcher (db : Db) (userId : Nat) (features nm field : String) :
    ActionResult :=
  match jsonParse features with
  | Except.error _ => ActionResult.error ActionError.parseError db
  | Except.ok parsed =>
    if features = "" then
      match prismaLayerCreate db nm (some field) userId [] with
      | Except.ok db' => ActionResult.ok db'
      | Except.error DbErr.uniqueViolation =>
        ActionResult.error ActionError.uniqueViolation db
    else
      match parsed with
      | Json.arr xs =>
        match mapOrThrow dispatcherFeatureData xs with
        | some rows =>
          match prismaLayerCreate db nm (some field) userId rows with
          | Except.ok db' => ActionResult.ok db'
          | Except.error DbErr.uniqueViolation =>
            ActionResult.error ActionError.uniqueViolation db
        | none => ActionResult.error ActionError.validationError db
      | _ => ActionResult.error ActionError.typeError db

def emptyDb : Db :=
  { layers := [], features := [], assignments := [],
    nextLayerId := 1, nextFeatureId := 1, nextAssignmentId := 1 }

/-! ## Task-map loader and client-side partition -/

/-- The task-map loader query
`prisma.feature.findMany(\x7b where: \x7b layerId, assignment: \x7b is: \x7b assigneeId \x7d\x7d\x7d, include: \x7b assignment \x7d\x7d)`:
the Features of the requested Layer whose (1:1) Assignment is assigned to
the requesting surveyor, each paired with that Assignment. -/
def loaderAssignments (db : Db) (layerId uid : Nat) :
    List (FeatureRow × AssignmentRow) :=
  db.features.filterMap fun f =>
    match db.assignments.find? (fun a => a.featureId == f.id) with
    | some a =>
      if f.layerId = layerId ∧ a.assigneeId = uid then some (f, a) else none
    | none => none

/-- One entry of a rendered GeoJSON `FeatureCollection` (`id`, the
feature's geometry, and the properties added by the client: `surveyId`,
`assignmentId`, `completed`).  The spread of the source properties bag is
outside the modelled subset. -/
structure RenderedFeature where
  id : Nat
  geometry : Option Json
  assignmentId : Nat
  surveyId : Option Nat
  completed : Bool

def renderFeature (x : FeatureRow × AssignmentRow) (c : Bool) : RenderedFeature :=
  { id := x.1.id, geometry := jsGet x.1.geojson ("geometry"),
    assignmentId := x.2.id, surveyId := x.2.surveyId, completed := c }

/-- `completedAssignments.features`: the fetched features whose assignment
is completed, rendered with `completed: true`. -/
def completedAssignments (fetched : List (FeatureRow × AssignmentRow)) :
    List RenderedFeature :=
  (fetched.filter fun x => x.2.completed).map fun x => renderFeature x true

/-- `todoAssignments.features`: the fetched features whose assignment is
not completed, rendered with `completed: false`. -/
def todoAssignments (fetched : List (FeatureRow × AssignmentRow)) :
    List RenderedFeature :=
  (fetched.filter fun x => !x.2.completed).map fun x => renderFeature x false

/-! ## Client-side map interaction state -/

structure Coords where
  lng : Rat
  lat : Rat
deriving DecidableEq

structure ViewState where
  longitude : Rat
  latitude : Rat
  zoom : Rat
deriving DecidableEq

/-- A map click event: the clicked location and the interactive-layer
features under the cursor. -/
structure ClickEvent where
  lngLat : Coords
  features : List RenderedFeature

/-- React state of the popup-variant `TaskMap` (the one without the
crosshair control). -/
structure PopupVariantState where
  showPopup : Bool
  addPoint : Bool
  dCoords : Coords
  assignment : Option Nat
  completed : Option Bool

/-- React state of the crosshair-variant `TaskMap` (the one that tracks
`viewState` and has the add-point toggle button). -/
structure CrosshairVariantState where
  showPopup : Bool
  addPoint : Bool
  viewState : ViewState
  dCoords : Coords
  assignment : Option Nat
  completed : Option Bool

/-- Popup-variant `onFeatureClick`: record the click location; a click on
an interactive feature opens its popup, any other click enters add-point
mode unconditionally. -/
def onFeatureClickPopupVariant (s : PopupVariantState) (e : ClickEvent) :
    PopupVariantState :=
  let s1 := { s with dCoords := e.lngLat }
  match e.features with
  | f :: _ =>
    { s1 with
      showPopup := true
      assignment := some f.assignmentId
      completed := some f.completed }
  | [] => { s1 with addPoint := true }

/-- Crosshair-variant `onFeatureClick`: a click on an interactive feature
leaves add-point mode and opens the popup; a click elsewhere only leaves
add-point mode if it was on. -/
def onFeatureClickCrosshair (s : CrosshairVariantState) (e : ClickEvent) :
    CrosshairVariantState :=
  let s1 := { s with dCoords := e.lngLat }
  match e.features with
  | f :: _ =>
    { s1 with
      addPoint := false
      showPopup := true
      assignment := some f.assignmentId
      completed := some f.completed }
  | [] => if s1.addPoint then { s1 with addPoint := false } else s1

/-- Popup-variant `onMove`: `setShowPopup(false); setAddPoint(false)`. -/
def onMovePopupVariant (s : PopupVariantState) : PopupVariantState :=
  { s with showPopup := false, addPoint := false }

/-- Crosshair-variant `onMove`: `setShowPopup(false); setViewState(e.viewState)` —
`addPoint` is untouched. -/
def onMoveCrosshair (s : CrosshairVariantState) (v : ViewState) :
    CrosshairVariantState :=
  { s with showPopup := false, viewState := v }

/-- Where the popup-variant "Add Point" popup is rendered: at `dCoords`,
when add-point mode is on. -/
def addPointPopupAt (s : PopupVariantState) : Option Coords :=
  if s.addPoint then some s.dCoords else none

/-- The body of one `fetcher.submit(..., \x7b action: "/layer/feature-create" \x7d)`
call. -/
structure FeatureCreateRequest where
  layerId : Nat
  coordinates : Coords
  userId : Nat
deriving DecidableEq

/-- Crosshair-variant `createPoint`: the submitted coordinates are the
current map center `(viewState.longitude, viewState.latitude)`. -/
def createPointCrosshair (lid uid : Nat) (s : CrosshairVariantState) :
    FeatureCreateRequest :=
  { layerId := lid,
    coordinates := { lng := s.viewState.longitude, lat := s.viewState.latitude },
    userId := uid }

/-- Popup-variant `createPoint`: the submitted coordinates are `dCoords`
(the last click location) and add-point mode is left. -/
def createPointPopupVariant (lid uid : Nat) (s : PopupVariantState) :
    FeatureCreateRequest × PopupVariantState :=
  ({ layerId := lid, coordinates := s.dCoords, userId := uid },
    { s with addPoint := false })

/-- A GeoJSON Point geometry at the given coordinates. -/
def pointGeojson (c : Coords) : Json :=
  Json.obj [(("type"), Json.str ("Point")),
    (("coordinates"), Json.arr [Json.num c.lng, Json.num c.lat])]

/-- Modelled from the spec: the `/layer/feature-create` action is not
present under `src/` (only its client-side callers are).  Per §4.4 of the
spec it atomically creates one Feature whose geometry is a Point at the
submitted coordinates and one Assignment with `completed = false` and
`assigneeId` equal to the submitting surveyor. -/
def featureCreate (db : Db) (req : FeatureCreateRequest) : Db :=
  { db with
    features := db.features ++
      [{ id := db.nextFeatureId, layerId := req.layerId,
         geojson := pointGeojson req.coordinates, label := none }],
    assignments := db.assignments ++
      [{ id := db.nextAssignmentId, featureId := db.nextFeatureId,
         assigneeId := req.userId, surveyId := none, completed := false }],
    nextFeatureId := db.nextFeatureId + 1,
    nextAssignmentId := db.nextAssignmentId + 1 }

/-! ## Assignment lifecycle -/

/-- The operations the system performs on Assignment rows. -/
inductive SurveyOp where
  | completeSurvey (assignmentId : Nat)
  | addPointOp (req : FeatureCreateRequest)

/-- Modelled from the spec: the survey-response subsystem (out of `src/`)
sets `completed = true` on the submitted Assignment; no operation ever
sets it back to `false` (§4.4: "No transition back to `Assigned` or
`Unassigned` is defined"). -/
def applyComplete (aid : Nat) (rows : List AssignmentRow) : List AssignmentRow :=
  rows.map fun a => if a.id = aid then { a with completed := true } else a

def applyOp (db : Db) : SurveyOp → Db
  | SurveyOp.completeSurvey aid =>
    { db with assignments := applyComplete aid db.assignments }
  | SurveyOp.addPointOp req => featureCreate db req

def applyOps (db : Db) : List SurveyOp → Db
  | [] => db
  | op :: ops => applyOps (applyOp db op) ops

/-- The persisted `completed` flag of assignment `aid` (false if the row
does not exist). -/
def completedIn (db : Db) (aid : Nat) : Bool :=
  match db.assignments.find? (fun a => a.id == aid) with
  | some a => a.completed
  | none => false

/-- Step `k` of an operation trace flips assignment `aid` from not
completed to completed. -/
def flipAt (db : Db) (aid : Nat) (ops : List SurveyOp) (k : Nat) : Prop :=
  completedIn (applyOps db (ops.take k)) aid = false ∧
    completedIn (applyOps db (ops.take (k + 1))) aid = true

/-- JavaScript truthiness of the `completed` popup state
(`useState<Boolean>()` starts `undefined`): `!completed`. -/
def jsNotCompleted : Option Bool → Bool
  | some b => !b
  | none => true

/-- JavaScript truthiness of the `assignment` popup state (an id). -/
def jsTruthyId : Option Nat → Bool
  | some n => n != 0
  | none => false

/-- Whether the crosshair-variant popup renders the "Complete Survey"
button: `showPopup && (!completed && assignment)`. -/
def showCompleteSurvey (s : CrosshairVariantState) : Bool :=
  s.showPopup && (jsNotCompleted s.completed && jsTruthyId s.assignment)

/-- Whether the popup-variant popup renders the "Complete Survey" button. -/
def showCompleteSurveyPopupVariant (s : PopupVariantState) : Bool :=
  s.showPopup && (jsNotCompleted s.completed && jsTruthyId s.assignment)

/-! ## Concrete scenarios used by witnesses and counterexamples -/

/-- A well-formed one-feature import payload:
`[\x7b"geojson": \x7b"properties": \x7b"name": "A"\x7d\x7d\x7d]`. -/
def featuresJsonW : String :=
  "[\x7b\"geojson\": \x7b\"properties\": \x7b\"name\": \"A\"\x7d\x7d\x7d]"

/-- The parsed `geojson` member of `featuresJsonW`'s only element. -/
def geojsonW : Json :=
  Json.obj [(("properties"), Json.obj [(("name"), Json.str ("A"))])]

/-- The database expected after a successful dispatcher-variant run of
`featuresJsonW` against `emptyDb`. -/
def dispatcherRunDb : Db :=
  { layers := [{ id := 1, name := "L", labelField := some ("name"), ownerId := 7 }],
    features := [{ id := 1, layerId := 1, geojson := geojsonW, label := none }],
    assignments := [],
    nextLayerId := 2, nextFeatureId := 2, nextAssignmentId := 1 }

/-- A database that already contains a layer named "L". -/
def dbWithLayerL : Db :=
  { layers := [{ id := 1, name := "L", labelField := none, ownerId := 7 }],
    features := [], assignments := [],
    nextLayerId := 2, nextFeatureId := 1, nextAssignmentId := 1 }

def fRowA : FeatureRow := { id := 1, layerId := 1, geojson := Json.null, label := none }

def fRowB : FeatureRow := { id := 2, layerId := 1, geojson := Json.null, label := none }

def aRowA : AssignmentRow :=
  { id := 1, featureId := 1, assigneeId := 9, surveyId := none, completed := true }

def aRowB : AssignmentRow :=
  { id := 2, featureId := 2, assigneeId := 9, surveyId := none, completed := false }

/-- A layer with two assigned features for surveyor 9: A completed, B not. -/
def dbTasks : Db :=
  { layers := [{ id := 1, name := "T", labelField := none, ownerId := 7 }],
    features := [fRowA, fRowB], assignments := [aRowA, aRowB],
    nextLayerId := 2, nextFeatureId := 3, nextAssignmentId := 3 }

/-- Popup-variant state after a click at (1, 2) entered add-point mode. -/
def sPopupAdd : PopupVariantState :=
  { showPopup := false, addPoint := true, dCoords := { lng := 1, lat := 2 },
    assignment := none, completed := none }

/-- The camera center of the counterexample scenario: the popup-variant
map is panned so that its center (3, 4) differs from the last click
location (1, 2). -/
def mapCenterScenario : Coords := { lng := 3, lat := 4 }

/-- Initial crosshair-variant state. -/
def sCrossInit : CrosshairVariantState :=
  { showPopup := false, addPoint := false,
    viewState := { longitude := 0, latitude := 0, zoom := 12 },
    dCoords := { lng := 0, lat := 0 }, assignment := none, completed := none }


/-- The parse of `featuresJsonW` (after the reviver, which leaves the
short strings involved unchanged). -/
def xsW : List Json := [Json.obj [(("geojson"), geojsonW)]]

/-- The database expected after a successful admins-variant run of
`featuresJsonW` against `emptyDb`: the label column holds
`properties["name"]`. -/
def adminsRunDb : Db :=
  { layers := [{ id := 1, name := "L", labelField := none, ownerId := 7 }],
    features :=
      [{ id := 1, layerId := 1, geojson := geojsonW,
         label := some (Json.str ("A")) }],
    assignments := [],
    nextLayerId := 2, nextFeatureId := 2, nextAssignmentId := 1 }

/-! ## Parser sanity checks -/

example : jsonParse ("") = Except.error ParseErr.syntaxErr := rfl

example : jsonParse ("[1, 2]") = Except.ok (Json.arr [Json.num 1, Json.num 2]) := rfl

example :
    jsonParse ("[\x7b\"a\": \"b\"\x7d]") =
      Except.ok (Json.arr [Json.obj [("a", Json.str ("b"))]]) := rfl

example : jsonParse ("-12") = Except.ok (Json.num (-12)) := rfl

example : jsonParse ("true") = Except.ok (Json.bool true) := rfl


/-! ## C1: the corruption scrub -/

lemma dedup_length_eq_one_iff {l : List Char} :
    l.dedup.length = 1 ↔ ∃ c, l ≠ [] ∧ ∀ x ∈ l, x = c := by
  constructor
  · intro h
    obtain ⟨c, hc⟩ := List.length_eq_one.mp h
    refine ⟨c, ?_, ?_⟩
    · intro hnil
      rw [hnil] at hc
      simp at hc
    · intro x hx
      have hxd : x ∈ l.dedup := List.mem_dedup.mpr hx
      rw [hc] at hxd
      simpa using hxd
  · rintro ⟨c, hne, hall⟩
    have hcl : c ∈ l := by
      obtain ⟨x, hx⟩ := List.exists_mem_of_ne_nil l hne
      have hxc := hall x hx
      rwa [hxc] at hx
    have hcd : c ∈ l.dedup := List.mem_dedup.mpr hcl
    have halld : ∀ x ∈ l.dedup, x = c := fun x hx => hall x (List.mem_dedup.mp hx)
    have hrep : l.dedup = List.replicate l.dedup.length c :=
      List.eq_replicate_length.mpr halld
    have hnd := List.nodup_dedup l
    have h1 : 1 ≤ l.dedup.length := List.length_pos.mpr (List.ne_nil_of_mem hcd)
    by_contra hlen
    have h2 : 2 ≤ l.dedup.length := by omega
    obtain ⟨k, hk⟩ : ∃ k, l.dedup.length = k + 2 := ⟨l.dedup.length - 2, by omega⟩
    rw [hk] at hrep
    rw [hrep] at hnd
    simp [List.replicate_succ, List.nodup_cons, List.mem_replicate] at hnd

lemma skipWs_quote (xs : List Char) : skipWs ('"' :: xs) = '"' :: xs := by
  simp only [skipWs]
  rw [if_neg (by decide)]

lemma parseStringBody_append (l r : List Char)
    (h : ∀ c ∈ l, c ≠ '"' ∧ c ≠ '\\') :
    parseStringBody (l ++ '"' :: r) = some (l, r) := by
  induction l with
  | nil => simp [parseStringBody]
  | cons c cs ih =>
    have hc := h c (List.mem_cons_self c cs)
    have ih' := ih fun x hx => h x (List.mem_cons_of_mem c hx)
    simp [parseStringBody, hc.1, hc.2, ih']

/-- C1: during JSON parsing of the features input, a string value is
replaced by the empty string if and only if it is exactly 254 copies of a
single character (i.e. its length is 254 and it has one distinct
character); every other string — length 254 with two or more distinct
characters, or any other length — is returned unchanged.  The second
conjunct ties the rewrite to parsing: the parser maps every string
literal it encounters through `scrubString`. -/
theorem c1_corruption_scrub (s : String) :
    ((scrubString s = "" ∧ ∃ c, s.data = List.replicate 254 c) ∨
      (scrubString s = s ∧ ¬∃ c, s.data = List.replicate 254 c)) ∧
    (∀ (fuel : Nat) (rest : List Char), (∀ c ∈ s.data, c ≠ '"' ∧ c ≠ '\\') →
      parseValue (fuel + 1) ('"' :: (s.data ++ '"' :: rest)) =
        some (Json.str (scrubString s), rest)) := by
  constructor
  · by_cases hcond : s.data.length = 254 ∧ s.data.dedup.length = 1
    · left
      constructor
      · simp [scrubString, hcond]
      · obtain ⟨hlen, hded⟩ := hcond
        obtain ⟨c, _, hall⟩ := dedup_length_eq_one_iff.mp hded
        refine ⟨c, ?_⟩
        rw [← hlen]
        exact List.eq_replicate_length.mpr hall
    · right
      constructor
      · simp only [scrubString]
        rw [if_neg hcond]
      · rintro ⟨c, hc⟩
        apply hcond
        constructor
        · rw [hc, List.length_replicate]
        · apply dedup_length_eq_one_iff.mpr
          refine ⟨c, ?_, ?_⟩
          · rw [hc]
            intro hnil
            have hlen := congrArg List.length hnil
            rw [List.length_replicate] at hlen
            simp at hlen
          · intro x hx
            rw [hc] at hx
            exact List.eq_of_mem_replicate hx
  · intro fuel rest h
    have hsb := parseStringBody_append s.data rest h
    show (parsers (fuel + 1)).1 ('"' :: (s.data ++ '"' :: rest)) = _
    rw [parsers]
    simp only [skipWs_quote, hsb]

/-- Witness for C1 at the concrete string "ab". -/
theorem c1_corruption_scrub_witness :
    parseValue 1 ('"' :: (("ab").data ++ '"' :: [])) =
      some (Json.str (scrubString ("ab")), []) :=
  (c1_corruption_scrub ("ab")).2 0 [] (by decide)

/-! ## C4: the empty-features branch is unreachable -/

/-- C4 (failing-input evaluation): with `features = ""`, both layer-create
actions fail with a parse error and leave the database unchanged —
`JSON.parse(String(features))` runs before the `features == ""` test and
throws on the empty string, so the featureless-Layer branch below it can
never run. -/
theorem c4_empty_features_throws (db : Db) (uid : Nat) (nm field : String) :
    actionAdmins db uid ("") nm field =
        ActionResult.error ActionError.parseError db ∧
      actionDispatcher db uid ("") nm field =
        ActionResult.error ActionError.parseError db := by
  constructor <;> rfl

/-! ## Shared facts about the create pipeline -/

lemma featureRowsFrom_length :
    ∀ (ds : List FeatureData) (s lid : Nat),
      (featureRowsFrom s lid ds).length = ds.length
  | [], _, _ => rfl
  | _ :: ds, s, lid => by
    simp [featureRowsFrom, featureRowsFrom_length ds (s + 1) lid]

lemma featureRowsFrom_layerId :
    ∀ (ds : List FeatureData) (s lid : Nat) (r : FeatureRow),
      r ∈ featureRowsFrom s lid ds → r.layerId = lid
  | d :: ds, s, lid, r, hr => by
    rcases List.mem_cons.mp hr with h | h
    · rw [h]
    · exact featureRowsFrom_layerId ds (s + 1) lid r h

lemma actionAdmins_eq_arr (db : Db) (uid : Nat) (s nm field : String)
    (xs : List Json) (hne : s ≠ "")
    (hparse : jsonParse s = Except.ok (Json.arr xs)) :
    actionAdmins db uid s nm field =
      match mapOrThrow (adminFeatureData field) xs with
      | some rows =>
        match prismaLayerCreate db nm none uid rows with
        | Except.ok db' => ActionResult.ok db'
        | Except.error DbErr.uniqueViolation =>
          ActionResult.error ActionError.uniqueViolation db
      | none => ActionResult.error ActionError.typeError db := by
  unfold actionAdmins
  rw [hparse]
  simp only []
  rw [if_neg hne]

lemma actionDispatcher_eq_arr (db : Db) (uid : Nat) (s nm field : String)
    (xs : List Json) (hne : s ≠ "")
    (hparse : jsonParse s = Except.ok (Json.arr xs)) :
    actionDispatcher db uid s nm field =
      match mapOrThrow dispatcherFeatureData xs with
      | some rows =>
        match prismaLayerCreate db nm (some field) uid rows with
        | Except.ok db' => ActionResult.ok db'
        | Except.error DbErr.uniqueViolation =>
          ActionResult.error ActionError.uniqueViolation db
      | none => ActionResult.error ActionError.validationError db := by
  unfold actionDispatcher
  rw [hparse]
  simp only []
  rw [if_neg hne]

lemma prismaLayerCreate_ok (db : Db) (nm : String) (lf : Option String)
    (uid : Nat) (data : List FeatureData) (db' : Db)
    (h : prismaLayerCreate db nm lf uid data = Except.ok db') :
    db'.layers = db.layers ++
        [{ id := db.nextLayerId, name := nm, labelField := lf, ownerId := uid }] ∧
      db'.features = db.features ++
        featureRowsFrom db.nextFeatureId db.nextLayerId data ∧
      db'.assignments = db.assignments := by
  unfold prismaLayerCreate at h
  by_cases hdup : db.layers.any (fun L => L.name == nm)
  · rw [if_pos hdup] at h
    cases h
  · rw [if_neg hdup] at h
    cases h
    exact ⟨rfl, rfl, rfl⟩
/-! ## C2: import atomicity -/

lemma mapOrThrow_forall2 (g : α → Option β) :
    ∀ (l : List α) (bs : List β), mapOrThrow g l = some bs →
      List.Forall₂ (fun a b => g a = some b) l bs
  | [], bs, h => by
    simp only [mapOrThrow, Option.some.injEq] at h
    rw [← h]
    exact List.Forall₂.nil
  | a :: as, bs, h => by
    unfold mapOrThrow at h
    cases hga : g a with
    | none => rw [hga] at h; cases h
    | some b =>
      rw [hga] at h
      cases hrest : mapOrThrow g as with
      | none => rw [hrest] at h; cases h
      | some bs' =>
        rw [hrest] at h
        cases h
        exact List.Forall₂.cons hga (mapOrThrow_forall2 g as bs' hrest)

lemma mapOrThrow_length (g : α → Option β) (l : List α) (bs : List β)
    (h : mapOrThrow g l = some bs) : bs.length = l.length :=
  (mapOrThrow_forall2 g l bs h).length_eq.symm

/-- C2: for a non-empty features input that parses to `N` feature
records (`N = xs.length`), a successful run of either layer-create action
persists exactly one new Layer row, exactly `N` Feature rows all linked
to it, and nothing else; and any failing run leaves the database exactly
as it was (atomicity). -/
theorem c2_import_atomicity (db : Db) (uid : Nat) (s nm field : String)
    (xs : List Json) (hne : s ≠ "")
    (hparse : jsonParse s = Except.ok (Json.arr xs)) :
    ((∀ db', actionAdmins db uid s nm field = ActionResult.ok db' →
        ∃ L rows, db'.layers = db.layers ++ [L] ∧
          db'.features = db.features ++ rows ∧ rows.length = xs.length ∧
          (∀ r ∈ rows, r.layerId = L.id) ∧
          db'.assignments = db.assignments) ∧
      (∀ e db', actionAdmins db uid s nm field = ActionResult.error e db' →
        db' = db)) ∧
    ((∀ db', actionDispatcher db uid s nm field = ActionResult.ok db' →
        ∃ L rows, db'.layers = db.layers ++ [L] ∧
          db'.features = db.features ++ rows ∧ rows.length = xs.length ∧
          (∀ r ∈ rows, r.layerId = L.id) ∧
          db'.assignments = db.assignments) ∧
      (∀ e db', actionDispatcher db uid s nm field = ActionResult.error e db' →
        db' = db)) := by
  have heqA := actionAdmins_eq_arr db uid s nm field xs hne hparse
  have heqD := actionDispatcher_eq_arr db uid s nm field xs hne hparse
  constructor
  · constructor
    · intro db' hok
      rw [heqA] at hok
      cases hmap : mapOrThrow (adminFeatureData field) xs with
      | none =>
        simp only [hmap] at hok
        exact ActionResult.noConfusion hok
      | some data =>
        simp only [hmap] at hok
        cases hpc : prismaLayerCreate db nm none uid data with
        | error e =>
          cases e
          simp only [hpc] at hok
          exact ActionResult.noConfusion hok
        | ok db2 =>
          simp only [hpc] at hok
          cases hok
          obtain ⟨hl, hf, ha⟩ := prismaLayerCreate_ok db nm none uid data _ hpc
          refine ⟨_, _, hl, hf, ?_, ?_, ha⟩
          · rw [featureRowsFrom_length]
            exact mapOrThrow_length _ _ _ hmap
          · intro r hr
            exact featureRowsFrom_layerId _ _ _ r hr
    · intro e db' herr
      rw [heqA] at herr
      cases hmap : mapOrThrow (adminFeatureData field) xs with
      | none =>
        simp only [hmap] at herr
        cases herr
        rfl
      | some data =>
        simp only [hmap] at herr
        cases hpc : prismaLayerCreate db nm none uid data with
        | error e' => cases e'; simp only [hpc] at herr; cases herr; rfl
        | ok db2 =>
          simp only [hpc] at herr
          exact ActionResult.noConfusion herr
  · constructor
    · intro db' hok
      rw [heqD] at hok
      cases hmap : mapOrThrow dispatcherFeatureData xs with
      | none =>
        simp only [hmap] at hok
        exact ActionResult.noConfusion hok
      | some data =>
        simp only [hmap] at hok
        cases hpc : prismaLayerCreate db nm (some field) uid data with
        | error e =>
          cases e
          simp only [hpc] at hok
          exact ActionResult.noConfusion hok
        | ok db2 =>
          simp only [hpc] at hok
          cases hok
          obtain ⟨hl, hf, ha⟩ :=
            prismaLayerCreate_ok db nm (some field) uid data _ hpc
          refine ⟨_, _, hl, hf, ?_, ?_, ha⟩
          · rw [featureRowsFrom_length]
            exact mapOrThrow_length _ _ _ hmap
          · intro r hr
            exact featureRowsFrom_layerId _ _ _ r hr
    · intro e db' herr
      rw [heqD] at herr
      cases hmap : mapOrThrow dispatcherFeatureData xs with
      | none =>
        simp only [hmap] at herr
        cases herr
        rfl
      | some data =>
        simp only [hmap] at herr
        cases hpc : prismaLayerCreate db nm (some field) uid data with
        | error e' => cases e'; simp only [hpc] at herr; cases herr; rfl
        | ok db2 =>
          simp only [hpc] at herr
          exact ActionResult.noConfusion herr

/-- Witness for C2: the concrete one-feature import `featuresJsonW`
against the empty database. -/
theorem c2_import_atomicity_witness :
    ∃ L rows, adminsRunDb.layers = emptyDb.layers ++ [L] ∧
      adminsRunDb.features = emptyDb.features ++ rows ∧
      rows.length = xsW.length ∧ (∀ r ∈ rows, r.layerId = L.id) ∧
      adminsRunDb.assignments = emptyDb.assignments :=
  (c2_import_atomicity emptyDb 7 featuresJsonW ("L") ("name") xsW
    (by decide) rfl).1.1 adminsRunDb rfl

/-! ## C8: parse and uniqueness failures are reported -/

/-- C8: a run with malformed JSON fails with the parse error, a run whose
layer name already exists fails with the uniqueness error, both as error
results delivered to the caller (the actions have no handler that could
swallow them), and the two failures are distinct. -/
theorem c8_error_reporting (db : Db) (uid : Nat) (s nm field : String) :
    ((jsonParse s = Except.error ParseErr.syntaxErr →
        actionAdmins db uid s nm field =
            ActionResult.error ActionError.parseError db ∧
          actionDispatcher db uid s nm field =
            ActionResult.error ActionError.parseError db) ∧
      (∀ xs data, s ≠ "" → jsonParse s = Except.ok (Json.arr xs) →
        mapOrThrow (adminFeatureData field) xs = some data →
        (∃ L ∈ db.layers, L.name = nm) →
        actionAdmins db uid s nm field =
          ActionResult.error ActionError.uniqueViolation db) ∧
      (∀ xs data, s ≠ "" → jsonParse s = Except.ok (Json.arr xs) →
        mapOrThrow dispatcherFeatureData xs = some data →
        (∃ L ∈ db.layers, L.name = nm) →
        actionDispatcher db uid s nm field =
          ActionResult.error ActionError.uniqueViolation db)) ∧
    ActionError.parseError ≠ ActionError.uniqueViolation := by
  refine ⟨⟨?_, ?_, ?_⟩, by decide⟩
  · intro h
    constructor
    · unfold actionAdmins
      rw [h]
    · unfold actionDispatcher
      rw [h]
  · intro xs data hne hparse hmap hdup
    have hany : db.layers.any (fun L => L.name == nm) = true := by
      rw [List.any_eq_true]
      obtain ⟨L, hL, hLn⟩ := hdup
      exact ⟨L, hL, by simp [hLn]⟩
    rw [actionAdmins_eq_arr db uid s nm field xs hne hparse]
    simp only [hmap]
    unfold prismaLayerCreate
    rw [if_pos hany]
  · intro xs data hne hparse hmap hdup
    have hany : db.layers.any (fun L => L.name == nm) = true := by
      rw [List.any_eq_true]
      obtain ⟨L, hL, hLn⟩ := hdup
      exact ⟨L, hL, by simp [hLn]⟩
    rw [actionDispatcher_eq_arr db uid s nm field xs hne hparse]
    simp only [hmap]
    unfold prismaLayerCreate
    rw [if_pos hany]

/-- Witness for C8: a malformed-input run and a duplicate-name run. -/
theorem c8_error_reporting_witness :
    actionAdmins emptyDb 1 ("not json") ("L") ("name") =
        ActionResult.error ActionError.parseError emptyDb ∧
      actionAdmins dbWithLayerL 7 featuresJsonW ("L") ("name") =
        ActionResult.error ActionError.uniqueViolation dbWithLayerL :=
  ⟨((c8_error_reporting emptyDb 1 ("not json") ("L") ("name")).1.1 rfl).1,
    (c8_error_reporting dbWithLayerL 7 featuresJsonW ("L") ("name")).1.2.1
      xsW [{ geojson := geojsonW, label := some (Json.str ("A")) }]
      (by decide) rfl rfl
      ⟨{ id := 1, name := ("L"), labelField := none, ownerId := 7 },
        by simp [dbWithLayerL], rfl⟩⟩

/-! ## C3: label derivation -/

/-- C3 (counterexample): a dispatcher-variant run whose only feature's
properties contain the submitted label field `"name"` succeeds but
persists the Feature with no label at all — the dispatcher variant passes
`parsedFeatures` to `createMany` unchanged and never computes
`properties[labelField]`. -/
theorem c3_label_counterexample :
    actionDispatcher emptyDb 7 featuresJsonW ("L") ("name") =
        ActionResult.ok dispatcherRunDb ∧
      jsGet geojsonW ("properties") =
        some (Json.obj [(("name"), Json.str ("A"))]) ∧
      jsGet (Json.obj [(("name"), Json.str ("A"))]) ("name") =
        some (Json.str ("A")) ∧
      dispatcherRunDb.features.map (fun r => r.label) = [none] :=
  ⟨rfl, rfl, rfl, rfl⟩

lemma adminFeatureData_label (field : String) (x g props v : Json)
    (d : FeatureData) (hx : adminFeatureData field x = some d)
    (hg : jsGet x ("geojson") = some g)
    (hp : jsGet g ("properties") = some props)
    (hv : jsGet props field = some v) : d.label = some v := by
  unfold adminFeatureData at hx
  split at hx
  · rename_i g' hg'
    rw [hg'] at hg
    cases hg
    split at hx
    · rename_i props' hp'
      rw [hp'] at hp
      cases hp
      split at hx
      · cases hx
        exact hv
      · exact Option.noConfusion hx
    · exact Option.noConfusion hx
  · exact Option.noConfusion hx

lemma adminRows_label_spec (field : String) :
    ∀ (xs : List Json) (data : List FeatureData) (startId lid : Nat),
      mapOrThrow (adminFeatureData field) xs = some data →
      List.Forall₂
        (fun (x : Json) (r : FeatureRow) =>
          ∀ g props v, jsGet x ("geojson") = some g →
            jsGet g ("properties") = some props →
            jsGet props field = some v → r.label = some v)
        xs (featureRowsFrom startId lid data)
  | [], data, s, lid, h => by
    simp only [mapOrThrow, Option.some.injEq] at h
    rw [← h]
    exact List.Forall₂.nil
  | x :: xs, data, s, lid, h => by
    unfold mapOrThrow at h
    cases hx : adminFeatureData field x with
    | none => rw [hx] at h; cases h
    | some d =>
      rw [hx] at h
      cases hrest : mapOrThrow (adminFeatureData field) xs with
      | none => rw [hrest] at h; cases h
      | some ds =>
        rw [hrest] at h
        cases h
        refine List.Forall₂.cons ?_
          (adminRows_label_spec field xs ds (s + 1) lid hrest)
        intro g props v hg hp hv
        exact adminFeatureData_label field x g props v d hx hg hp hv

/-- C3 (amended): in the admins-variant action — the only variant that
derives labels — every successful non-empty import persists, for each
input feature in order, a Feature row whose label equals
`properties[labelField]` verbatim whenever that key is present; the
dispatcher variant stores `labelField` on the Layer and persists the
features without a label. -/
theorem c3_label_derivation (db : Db) (uid : Nat) (s nm field : String)
    (xs : List Json) (db' : Db) (hne : s ≠ "")
    (hparse : jsonParse s = Except.ok (Json.arr xs))
    (hok : actionAdmins db uid s nm field = ActionResult.ok db') :
    ∃ rows, db'.features = db.features ++ rows ∧
      List.Forall₂
        (fun (x : Json) (r : FeatureRow) =>
          ∀ g props v, jsGet x ("geojson") = some g →
            jsGet g ("properties") = some props →
            jsGet props field = some v → r.label = some v) xs rows := by
  rw [actionAdmins_eq_arr db uid s nm field xs hne hparse] at hok
  cases hmap : mapOrThrow (adminFeatureData field) xs with
  | none =>
    simp only [hmap] at hok
    exact ActionResult.noConfusion hok
  | some data =>
    simp only [hmap] at hok
    cases hpc : prismaLayerCreate db nm none uid data with
    | error e =>
      cases e
      simp only [hpc] at hok
      exact ActionResult.noConfusion hok
    | ok db2 =>
      simp only [hpc] at hok
      cases hok
      obtain ⟨_, hf, _⟩ := prismaLayerCreate_ok db nm none uid data _ hpc
      exact ⟨_, hf,
        adminRows_label_spec field xs data db.nextFeatureId db.nextLayerId hmap⟩

/-- Witness for C3 on the concrete one-feature import. -/
theorem c3_label_derivation_witness :
    ∃ rows, adminsRunDb.features = emptyDb.features ++ rows ∧
      List.Forall₂
        (fun (x : Json) (r : FeatureRow) =>
          ∀ g props v, jsGet x ("geojson") = some g →
            jsGet g ("properties") = some props →
            jsGet props ("name") = some v → r.label = some v) xsW rows :=
  c3_label_derivation emptyDb 7 featuresJsonW ("L") ("name") xsW adminsRunDb
    (by decide) rfl rfl

/-! ## C5: the map-view query and its partition -/

/-- C5: the task-map loader returns exactly the Features of the requested
Layer whose Assignment belongs to the requesting surveyor, and the client
partition puts every fetched feature in `completedAssignments` exactly
when its assignment is completed and in `todoAssignments` exactly when it
is not — never in both. -/
theorem c5_loader_partition (db : Db) (L uid : Nat) :
    (∀ x : FeatureRow × AssignmentRow,
      x ∈ loaderAssignments db L uid ↔
        (x.1 ∈ db.features ∧
          db.assignments.find? (fun a => a.featureId == x.1.id) = some x.2 ∧
          x.1.layerId = L ∧ x.2.assigneeId = uid)) ∧
    (∀ x, x ∈ loaderAssignments db L uid →
      ((x ∈ (loaderAssignments db L uid).filter (fun y => y.2.completed) ↔
          x.2.completed = true) ∧
        (x ∈ (loaderAssignments db L uid).filter (fun y => !y.2.completed) ↔
          x.2.completed = false) ∧
        ¬(x ∈ (loaderAssignments db L uid).filter (fun y => y.2.completed) ∧
            x ∈ (loaderAssignments db L uid).filter (fun y => !y.2.completed)))) ∧
    completedAssignments (loaderAssignments db L uid) =
        ((loaderAssignments db L uid).filter (fun y => y.2.completed)).map
          (fun y => renderFeature y true) ∧
    todoAssignments (loaderAssignments db L uid) =
        ((loaderAssignments db L uid).filter (fun y => !y.2.completed)).map
          (fun y => renderFeature y false) := by
  refine ⟨?_, ?_, rfl, rfl⟩
  · intro x
    constructor
    · intro hx
      obtain ⟨a, ha, hfa⟩ := List.mem_filterMap.mp hx
      split at hfa
      · rename_i a' hfind
        split at hfa
        · rename_i hcond
          cases hfa
          exact ⟨ha, hfind, hcond.1, hcond.2⟩
        · exact Option.noConfusion hfa
      · exact Option.noConfusion hfa
    · rintro ⟨hmem, hfind, hlay, hass⟩
      apply List.mem_filterMap.mpr
      refine ⟨x.1, hmem, ?_⟩
      simp only [hfind]
      rw [if_pos ⟨hlay, hass⟩]
  · intro x hx
    refine ⟨?_, ?_, ?_⟩
    · rw [List.mem_filter]
      constructor
      · rintro ⟨_, h⟩
        exact h
      · intro h
        exact ⟨hx, h⟩
    · rw [List.mem_filter]
      constructor
      · rintro ⟨_, h⟩
        simpa using h
      · intro h
        refine ⟨hx, ?_⟩
        simp [h]
    · rintro ⟨h1, h2⟩
      rw [List.mem_filter] at h1 h2
      have hc := h1.2
      have hn := h2.2
      rw [hc] at hn
      simp at hn

/-- Witness for C5 on the two-assignment scenario (A completed, B not). -/
theorem c5_loader_partition_witness :
    ((fRowA, aRowA) ∈
        (loaderAssignments dbTasks 1 9).filter (fun y => y.2.completed) ↔
      (fRowA, aRowA).2.completed = true) ∧
    ((fRowA, aRowA) ∈
        (loaderAssignments dbTasks 1 9).filter (fun y => !y.2.completed) ↔
      (fRowA, aRowA).2.completed = false) ∧
    ¬((fRowA, aRowA) ∈
        (loaderAssignments dbTasks 1 9).filter (fun y => y.2.completed) ∧
      (fRowA, aRowA) ∈
        (loaderAssignments dbTasks 1 9).filter (fun y => !y.2.completed)) :=
  (c5_loader_partition dbTasks 1 9).2.1 (fRowA, aRowA)
    (by
      rw [show loaderAssignments dbTasks 1 9 =
        [(fRowA, aRowA), (fRowB, aRowB)] from rfl]
      exact List.mem_cons_self _ _)

/-! ## C6, C7, C10: map interaction -/

/-- C6 (counterexample): in the popup variant, confirming "Add Point"
submits the last click coordinates `dCoords`, not the current map-center:
in the scenario where the camera center is (3, 4) and the click was at
(1, 2), the emitted request carries (1, 2). -/
theorem c6_add_point_counterexample :
    (createPointPopupVariant 1 9 sPopupAdd).1.coordinates = sPopupAdd.dCoords ∧
      (createPointPopupVariant 1 9 sPopupAdd).1.coordinates ≠
        mapCenterScenario :=
  ⟨rfl, by decide⟩

/-- C6 (amended): in the crosshair variant, confirming "Add Point" emits
one feature-create request whose point location is the current map-center
coordinates `(viewState.longitude, viewState.latitude)`, and the
(spec-modelled) feature-create action persists one Feature at that point
and one Assignment with `completed = false` and `assigneeId` equal to the
submitting surveyor.  The popup variant instead submits the click
coordinates. -/
theorem c6_add_point_center (db : Db) (lid uid : Nat)
    (s : CrosshairVariantState) :
    (createPointCrosshair lid uid s).coordinates =
        { lng := s.viewState.longitude, lat := s.viewState.latitude } ∧
      (featureCreate db (createPointCrosshair lid uid s)).features =
        db.features ++
          [{ id := db.nextFeatureId, layerId := lid,
             geojson := pointGeojson
               { lng := s.viewState.longitude, lat := s.viewState.latitude },
             label := none }] ∧
      (featureCreate db (createPointCrosshair lid uid s)).assignments =
        db.assignments ++
          [{ id := db.nextAssignmentId, featureId := db.nextFeatureId,
             assigneeId := uid, surveyId := none, completed := false }] :=
  ⟨rfl, rfl, rfl⟩

/-- C7 (counterexample): in the popup variant a camera move does not
leave the add-point flag unchanged — `onMove` runs `setAddPoint(false)`
and closes add-point mode that was on. -/
theorem c7_move_counterexample :
    sPopupAdd.addPoint = true ∧
      (onMovePopupVariant sPopupAdd).addPoint = false :=
  ⟨rfl, rfl⟩

/-- C7 (amended): every camera pan or zoom closes an open feature popup
in both task-map variants; the crosshair variant leaves the add-point
flag unchanged, while the popup variant also exits add-point mode. -/
theorem c7_move_closes_popup (sc : CrosshairVariantState) (v : ViewState)
    (sp : PopupVariantState) :
    (onMoveCrosshair sc v).showPopup = false ∧
      (onMoveCrosshair sc v).addPoint = sc.addPoint ∧
      (onMovePopupVariant sp).showPopup = false ∧
      (onMovePopupVariant sp).addPoint = false :=
  ⟨rfl, rfl, rfl, rfl⟩

/-- C10: in the popup variant, any map click that hits no interactive
feature enters add-point mode — whatever the previous state — and the
Add Point popup is rendered at the clicked coordinates. -/
theorem c10_click_enters_add_point (s : PopupVariantState) (e : ClickEvent)
    (h : e.features = []) :
    (onFeatureClickPopupVariant s e).addPoint = true ∧
      addPointPopupAt (onFeatureClickPopupVariant s e) = some e.lngLat := by
  unfold onFeatureClickPopupVariant
  rw [h]
  exact ⟨rfl, rfl⟩

/-- Witness for C10 at a concrete click. -/
theorem c10_click_enters_add_point_witness :
    (onFeatureClickPopupVariant sPopupAdd
        { lngLat := { lng := 5, lat := 6 }, features := [] }).addPoint = true ∧
      addPointPopupAt (onFeatureClickPopupVariant sPopupAdd
          { lngLat := { lng := 5, lat := 6 }, features := [] }) =
        some { lng := 5, lat := 6 } :=
  c10_click_enters_add_point sPopupAdd
    { lngLat := { lng := 5, lat := 6 }, features := [] } rfl

/-! ## C9: the completed flag never reverts -/

lemma completedIn_complete_mono (db : Db) (a aid : Nat)
    (h : completedIn db a = true) :
    completedIn { db with assignments := applyComplete aid db.assignments }
      a = true := by
  unfold completedIn at h ⊢
  unfold applyComplete
  rw [List.find?_map]
  have hcomp : ((fun x : AssignmentRow => x.id == a) ∘ fun x =>
      if x.id = aid then { x with completed := true } else x) =
      fun x : AssignmentRow => x.id == a := by
    funext x
    by_cases hxa : x.id = aid
    · simp [hxa]
    · simp [hxa]
  rw [hcomp]
  cases hfind : db.assignments.find? (fun x => x.id == a) with
  | none =>
    rw [hfind] at h
    exact Bool.noConfusion h
  | some r =>
    rw [hfind] at h
    have hr : r.completed = true := h
    simp only [Option.map_some']
    by_cases hra : r.id = aid
    · simp [hra]
    · simp [hra, hr]

lemma completedIn_append_mono (db : Db) (a : Nat) (req : FeatureCreateRequest)
    (h : completedIn db a = true) :
    completedIn (featureCreate db req) a = true := by
  unfold completedIn at h ⊢
  unfold featureCreate
  simp only [List.find?_append]
  cases hfind : db.assignments.find? (fun x => x.id == a) with
  | none =>
    rw [hfind] at h
    exact Bool.noConfusion h
  | some r =>
    rw [hfind] at h
    have hr : r.completed = true := h
    simp [hr]

lemma completedIn_step_mono (db : Db) (a : Nat) (op : SurveyOp)
    (h : completedIn db a = true) :
    completedIn (applyOp db op) a = true := by
  cases op with
  | completeSurvey aid => exact completedIn_complete_mono db a aid h
  | addPointOp req => exact completedIn_append_mono db a req h

lemma completedIn_ops_mono (a : Nat) :
    ∀ (ops : List SurveyOp) (db : Db), completedIn db a = true →
      completedIn (applyOps db ops) a = true
  | [], _, h => h
  | op :: ops, db, h =>
    completedIn_ops_mono a ops (applyOp db op) (completedIn_step_mono db a op h)

lemma applyOps_append (l1 l2 : List SurveyOp) :
    ∀ db : Db, applyOps db (l1 ++ l2) = applyOps (applyOps db l1) l2 := by
  induction l1 with
  | nil => intro db; rfl
  | cons op ops ih => intro db; exact ih (applyOp db op)

lemma completedIn_take_mono (db : Db) (a : Nat) (ops : List SurveyOp)
    (i j : Nat) (hij : i ≤ j)
    (h : completedIn (applyOps db (ops.take i)) a = true) :
    completedIn (applyOps db (ops.take j)) a = true := by
  have htake : ops.take j = ops.take i ++ (ops.drop i).take (j - i) := by
    conv_lhs => rw [show j = i + (j - i) from by omega]
    exact List.take_add ops i (j - i)
  rw [htake, applyOps_append]
  exact completedIn_ops_mono a _ _ h

lemma rendered_not_completed_source
    (fetched : List (FeatureRow × AssignmentRow)) (rf : RenderedFeature)
    (hmem : rf ∈ todoAssignments fetched ++ completedAssignments fetched)
    (hcf : rf.completed = false) :
    ∃ x ∈ fetched, x.2.completed = false ∧ rf.assignmentId = x.2.id := by
  rcases List.mem_append.mp hmem with hm | hm
  · unfold todoAssignments at hm
    obtain ⟨x, hx, hxe⟩ := List.mem_map.mp hm
    rw [List.mem_filter] at hx
    refine ⟨x, hx.1, ?_, ?_⟩
    · simpa using hx.2
    · rw [← hxe]
      exact rfl
  · unfold completedAssignments at hm
    obtain ⟨x, hx, hxe⟩ := List.mem_map.mp hm
    rw [← hxe] at hcf
    exact Bool.noConfusion hcf

/-- C9: over any trace of the system's assignment operations (completing
a survey, adding a field point), an Assignment's `completed` flag never
reverts — once true it stays true and it flips false→true at most once —
and both task-map popups (the crosshair variant's and the popup
variant's) offer "Complete Survey" only when the clicked feature's
assignment is not completed. -/
theorem c9_completed_monotone :
    (∀ (db : Db) (a : Nat) (ops : List SurveyOp), completedIn db a = true →
      completedIn (applyOps db ops) a = true) ∧
    (∀ (db : Db) (a : Nat) (ops : List SurveyOp) (i j : Nat), i < j →
      flipAt db a ops i → ¬flipAt db a ops j) ∧
    (∀ (fetched : List (FeatureRow × AssignmentRow))
        (s : CrosshairVariantState) (e : ClickEvent)
        (rf : RenderedFeature) (rest : List RenderedFeature),
      e.features = rf :: rest →
      rf ∈ todoAssignments fetched ++ completedAssignments fetched →
      showCompleteSurvey (onFeatureClickCrosshair s e) = true →
      ∃ x ∈ fetched, x.2.completed = false ∧ rf.assignmentId = x.2.id) ∧
    (∀ (fetched : List (FeatureRow × AssignmentRow))
        (s : PopupVariantState) (e : ClickEvent)
        (rf : RenderedFeature) (rest : List RenderedFeature),
      e.features = rf :: rest →
      rf ∈ todoAssignments fetched ++ completedAssignments fetched →
      showCompleteSurveyPopupVariant (onFeatureClickPopupVariant s e) = true →
      ∃ x ∈ fetched, x.2.completed = false ∧ rf.assignmentId = x.2.id) := by
  refine ⟨?_, ?_, ?_, ?_⟩
  · intro db a ops h
    exact completedIn_ops_mono a ops db h
  · intro db a ops i j hij hi hj
    have hmono := completedIn_take_mono db a ops (i + 1) j (by omega) hi.2
    rw [hj.1] at hmono
    exact Bool.noConfusion hmono
  · intro fetched s e rf rest he hmem hshow
    unfold onFeatureClickCrosshair at hshow
    rw [he] at hshow
    simp only [showCompleteSurvey, jsNotCompleted, jsTruthyId,
      Bool.true_and, Bool.and_eq_true] at hshow
    have hcf : rf.completed = false := by
      have := hshow.1
      simpa using this
    exact rendered_not_completed_source fetched rf hmem hcf
  · intro fetched s e rf rest he hmem hshow
    unfold onFeatureClickPopupVariant at hshow
    rw [he] at hshow
    simp only [showCompleteSurveyPopupVariant, jsNotCompleted, jsTruthyId,
      Bool.true_and, Bool.and_eq_true] at hshow
    have hcf : rf.completed = false := by
      have := hshow.1
      simpa using this
    exact rendered_not_completed_source fetched rf hmem hcf

/-- Witness for C9 on the two-assignment scenario, exercising both popup
variants' gating. -/
theorem c9_completed_monotone_witness :
    completedIn (applyOps dbTasks [SurveyOp.completeSurvey 2]) 1 = true ∧
      ¬flipAt dbTasks 2 [SurveyOp.completeSurvey 2] 1 ∧
      (∃ x ∈ [(fRowA, aRowA), (fRowB, aRowB)], x.2.completed = false ∧
        (renderFeature (fRowB, aRowB) false).assignmentId = x.2.id) ∧
      ∃ x ∈ [(fRowB, aRowB)], x.2.completed = false ∧
        (renderFeature (fRowB, aRowB) false).assignmentId = x.2.id :=
  ⟨c9_completed_monotone.1 dbTasks 1 [SurveyOp.completeSurvey 2] rfl,
    c9_completed_monotone.2.1 dbTasks 2 [SurveyOp.completeSurvey 2] 0 1
      (by decide) (by constructor <;> rfl),
    c9_completed_monotone.2.2.1 [(fRowA, aRowA), (fRowB, aRowB)] sCrossInit
      { lngLat := { lng := 0, lat := 0 },
        features := [renderFeature (fRowB, aRowB) false] }
      (renderFeature (fRowB, aRowB) false) [] rfl
      (by
        rw [show todoAssignments [(fRowA, aRowA), (fRowB, aRowB)] ++
            completedAssignments [(fRowA, aRowA), (fRowB, aRowB)] =
            [renderFeature (fRowB, aRowB) false,
              renderFeature (fRowA, aRowA) true] from rfl]
        exact List.mem_cons_self _ _)
      rfl,
    c9_completed_monotone.2.2.2 [(fRowB, aRowB)] sPopupAdd
      { lngLat := { lng := 5, lat := 6 },
        features := [renderFeature (fRowB, aRowB) false] }
      (renderFeature (fRowB, aRowB) false) [] rfl
      (by
        rw [show todoAssignments [(fRowB, aRowB)] ++
            completedAssignments [(fRowB, aRowB)] =
            [renderFeature (fRowB, aRowB) false] from rfl]
        exact List.mem_cons_self _ _)
      rfl⟩
